import Mathlib

/-!
Shallow embedding of the GxP AI MVP application (`src/app.py`): a single-file
retrieval-augmented-generation chat assistant.  The per-turn pipeline
(user-input handler, lines 102-170), engine setup (lines 33-54), ingestion
warnings (lines 44-50), source-type marker parsing (lines 143-148), grounding
citation display (lines 156-158) and audit-log export (lines 77-85) are
translated into executable Lean definitions.  External services (PDF parsing,
the Chroma vector store, the hosted LLM) are passed in as function parameters
returning `Except`, so that their failure modes are explicit.
-/

/-- Python substring prefix test over character lists. -/
def isPrefixL : List Char → List Char → Bool
  | [], _ => true
  | _ :: _, [] => false
  | p :: ps, a :: as => (p == a) && isPrefixL ps as

/-- Python `pat in s` (substring containment) over character lists.
`"" in s` is `True` in Python, matching the first branch. -/
def containsSubL : List Char → List Char → Bool
  | _, [] => true
  | [], _ :: _ => false
  | a :: rest, p :: ps => isPrefixL (p :: ps) (a :: rest) || containsSubL rest (p :: ps)

/-- Fuel-indexed worker for Python `s.replace(pat, repl)`: scan left to right,
replacing non-overlapping occurrences.  Fuel `s.length` is always enough
because each step consumes at least one character. -/
def replaceAllAux (pat repl : List Char) : Nat → List Char → List Char
  | 0, s => s
  | _ + 1, [] => []
  | fuel + 1, a :: rest =>
    if isPrefixL pat (a :: rest) then
      repl ++ replaceAllAux pat repl fuel (List.drop (pat.length - 1) rest)
    else
      a :: replaceAllAux pat repl fuel rest

/-- Python `s.replace(pat, repl)` over character lists (non-empty `pat`). -/
def replaceAllL (pat repl s : List Char) : List Char :=
  replaceAllAux pat repl s.length s

/-- Whitespace characters removed by Python `str.strip()` with no argument. -/
def isPyWS (c : Char) : Bool :=
  c == ' ' || c == '\t' || c == '\n' || c == '\x0d' || c == '\x0b' || c == '\x0c'

/-- Python `s.strip()` over character lists. -/
def stripL (s : List Char) : List Char :=
  ((s.dropWhile isPyWS).reverse.dropWhile isPyWS).reverse

/-- Python `pat in s` on strings (used at app.py lines 143 and 156). -/
def pyContains (s pat : String) : Bool := containsSubL s.data pat.data

/-- Python `s.replace(pat, repl)` on strings (app.py lines 145 and 148). -/
def pyReplace (s pat repl : String) : String := ⟨replaceAllL pat.data repl.data s.data⟩

/-- Python `s.strip()` on strings (app.py lines 145 and 148). -/
def pyStrip (s : String) : String := ⟨stripL s.data⟩

/-- `os.path.basename`: the part of a path after the last `/`
(app.py lines 114 and 157). -/
def basename (s : String) : String :=
  ⟨((s.data.reverse.takeWhile (fun c => c ≠ '/'))).reverse⟩

/-- Python `f.lower().endswith('.pdf')` (app.py lines 39 and 68). -/
def lowerEndsWithPdf (f : String) : Bool :=
  isPrefixL (".pdf".data.reverse) ((f.data.map Char.toLower).reverse)

-- Basic sanity checks of the Python string-operation embedding.
example : pyContains "abc SOURCE_TYPE: METADATA xyz" "SOURCE_TYPE: METADATA" = true := by decide
example : pyContains "abc" "CONTENT" = false := by decide
example : pyReplace "xSOURCE_TYPE: CONTENTy" "SOURCE_TYPE: CONTENT" "" = "xy" := by decide
example : pyStrip "  hi \n" = "hi" := by decide
example : basename "knowledge/SOP-001.pdf" = "SOP-001.pdf" := by decide
example : lowerEndsWithPdf "A.PDF" = true := by decide
example : lowerEndsWithPdf "a.txt" = false := by decide

/-- A retrieved document as returned by `engine.similarity_search`: page text
plus a metadata dictionary that may or may not carry the `source` and `page`
keys.  The two optional fields model `doc.metadata.get(...)` vs. the direct
`doc.metadata[...]` accesses in app.py. -/
structure Doc where
  page_content : String
  source : Option String
  page : Option Nat
deriving DecidableEq, Repr

/-- The cached engine (the Chroma vector store built at app.py line 53); it
owns the ingested pages. -/
structure Engine where
  pages : List Doc
deriving DecidableEq, Repr

/-- One chat message in `st.session_state.chat_history`. -/
structure Msg where
  role : String
  content : String
deriving DecidableEq, Repr

/-- One audit-trail entry appended at app.py lines 162-168; field order is the
dict-key order of that literal. -/
structure LogEntry where
  user : String
  timestamp : String
  query : String
  source_type : String
  status : String
deriving DecidableEq, Repr

/-- Session state: chat history and audit log (app.py lines 26-29). -/
structure AppState where
  chat_history : List Msg
  logs : List LogEntry
deriving DecidableEq, Repr

/-- What the user sees at the end of a turn: a rendered answer (with the
source-type label, the cleaned reply and, when the grounding pills were shown,
the citation list), the engine-unavailable error (app.py line 170), or an
uncaught exception which aborts the Streamlit script for that turn. -/
inductive Outcome where
  | ok (source_display : String) (clean_response : String) (citations : Option (List String))
  | engineUnavailable (msg : String)
  | aborted (err : String)
deriving DecidableEq, Repr

/-- Warning message for an unparsable file (app.py line 50). -/
def warnMsg (pdf err : String) : String := "Could not load " ++ pdf ++ ": " ++ err

/-- Per-file ingestion loop of `setup_engine` (app.py lines 44-50): each file
is loaded inside `try/except`; on failure a warning is recorded and the file
is skipped; pages of successful files are concatenated in file order.
`load` stands for `PyPDFLoader(...).load()`. -/
def ingest (load : String → Except String (List Doc)) : List String → List Doc × List String
  | [] => ([], [])
  | f :: rest =>
    match load f with
    | .ok pages =>
      let r := ingest load rest
      (pages ++ r.1, r.2)
    | .error e =>
      let r := ingest load rest
      (r.1, warnMsg f e :: r.2)

/-- `setup_engine` (app.py lines 33-54): filter the directory listing to
`.pdf` files (case-insensitive); with no matches return `None`; otherwise
ingest all files and build the vector store from the collected pages.  The
second component collects the `st.warning` messages emitted. -/
def setup_engine (load : String → Except String (List Doc))
    (all_files : List String) : Option Engine × List String :=
  let pdf_files := all_files.filter lowerEndsWithPdf
  match pdf_files with
  | [] => (none, [])
  | _ :: _ =>
    let r := ingest load pdf_files
    (some ⟨r.1⟩, r.2)

/-- Routing marker for metadata-type replies (app.py line 143). -/
def metaMarker : String := "SOURCE_TYPE: METADATA"

/-- Routing marker for content-type replies (app.py line 148). -/
def contentMarker : String := "SOURCE_TYPE: CONTENT"

/-- Source label shown for metadata-routed replies (app.py line 144). -/
def metaLabel : String := "📂 System Metadata (Library List)"

/-- Source label shown for content-routed replies (app.py line 147). -/
def contentLabel : String := "📑 Document Content (Inside SOPs)"

/-- Error shown when the engine is unavailable (app.py line 170). -/
def errNoPdfs : String :=
  "No PDFs detected in the 'knowledge/' folder. Please upload SOPs to continue."

/-- Source-type parsing (app.py lines 143-148): a reply containing the
metadata marker is labelled as metadata and has that marker removed; any
other reply is labelled as content and has the content marker removed;
either way the result is stripped. -/
def parseSourceType (raw : String) : String × String :=
  if pyContains raw metaMarker then
    (metaLabel, pyStrip (pyReplace raw metaMarker ""))
  else
    (contentLabel, pyStrip (pyReplace raw contentMarker ""))

/-- One context block (app.py lines 113-116): missing `source` metadata
defaults to `'Unknown'` and missing `page` to `0` via `dict.get`. -/
def contextBlock (d : Doc) : String :=
  let source_name := basename (d.source.getD "Unknown")
  let page_num := (d.page.getD 0) + 1
  "SOURCE: " ++ source_name ++ " (Page " ++ toString page_num ++ ")\nCONTENT: " ++ d.page_content

/-- The rendered citation string of app.py line 157 for a record whose
metadata carries both keys. -/
def renderCit (s : String) (p : Nat) : String :=
  basename s ++ " (p." ++ toString (p + 1) ++ ")"

/-- One citation (app.py line 157): `d.metadata['source']` and
`d.metadata['page']` are direct key accesses, so a missing key raises
`KeyError` (modelled as the error branch); `source` is accessed first. -/
def citationOf (d : Doc) : Except String String :=
  match d.source with
  | none => .error "KeyError: 'source'"
  | some s =>
    match d.page with
    | none => .error "KeyError: 'page'"
    | some p => .ok (renderCit s p)

/-- The list comprehension inside `set([...])` at app.py line 157: citations
of all retrieved records in order, aborting at the first `KeyError`. -/
def citationsRaw : List Doc → Except String (List String)
  | [] => .ok []
  | d :: rest =>
    match citationOf d with
    | .error e => .error e
    | .ok c =>
      match citationsRaw rest with
      | .error e => .error e
      | .ok cs => .ok (c :: cs)

/-- The displayed grounding-pill set (app.py line 157): the raw citations of
all retrieved records, de-duplicated by Python `set`. -/
def citationSet (results : List Doc) : Except String (List String) :=
  (citationsRaw results).map List.dedup

/-- The routing system prompt (app.py lines 125-137) as a function of the SOP
list string, the context text and the user question. -/
def systemPrompt (sop_list_str context_text prompt : String) : String :=
  "\n            You are a GxP Compliance Assistant. You have access to two data sources:\n            \n            1. SYSTEM METADATA: A list of the current SOP files: " ++ sop_list_str ++
  "\n            2. DOCUMENT CONTENT: Specific text retrieved from inside those files: " ++ context_text ++
  "\n\n            INSTRUCTIONS:\n            - If the user asks about the library, what documents you have, or the sidebar, use SYSTEM METADATA. Start your answer with \"SOURCE_TYPE: METADATA\".\n            - If the user asks about procedures, instructions, or details inside an SOP, use DOCUMENT CONTENT. Start your answer with \"SOURCE_TYPE: CONTENT\". Mention SOP names and Page Numbers.\n            - If the answer is not available, say you don't know based on the grounded library.\n\n            User Question: " ++ prompt ++ "\n            "

/-- The chat-input handler (app.py lines 102-170) for one user turn.
The user message is appended to the chat history first (line 104).  With no
engine, an error is shown and nothing else happens (lines 169-170).
Otherwise: similarity search (line 111, external and fallible), context
assembly (112-118), prompt assembly (121-137), model invocation (124, 139,
external and fallible — this also covers `get_llm`, whose secret lookup can
raise), marker parsing (143-148), grounding display with its possible
`KeyError` (156-158), and finally the history and audit-log appends
(161-168), which run only when everything before them succeeded. -/
def handleTurn (engine : Option Engine)
    (retrieve : Engine → String → Except String (List Doc))
    (invoke : String → Except String String)
    (current_pdfs : List String) (now : String)
    (prompt : String) (st : AppState) : AppState × Outcome :=
  let st1 : AppState := { st with chat_history := st.chat_history ++ [⟨"user", prompt⟩] }
  match engine with
  | none => (st1, .engineUnavailable errNoPdfs)
  | some eng =>
    match retrieve eng prompt with
    | .error e => (st1, .aborted e)
    | .ok results =>
      let context_text := String.intercalate "\n\n---\n\n" (results.map contextBlock)
      let sop_list_str := String.intercalate ", " current_pdfs
      let system_prompt := systemPrompt sop_list_str context_text prompt
      match invoke system_prompt with
      | .error e => (st1, .aborted e)
      | .ok raw_content =>
        let parsed := parseSourceType raw_content
        match (if pyContains raw_content "CONTENT" then (citationSet results).map some else .ok none) with
        | .error e => (st1, .aborted e)
        | .ok cits =>
          let st2 : AppState :=
            { chat_history := st1.chat_history ++ [⟨"assistant", parsed.2⟩],
              logs := st1.logs ++ [⟨"Shan (Lead)", now, prompt, parsed.1, "Success"⟩] }
          (st2, .ok parsed.1 parsed.2 cits)

/-- Column-header row of the audit-log CSV export: pandas takes the column
order from the keys of the appended dict (app.py lines 162-168). -/
def exportHeader : List String := ["user", "timestamp", "query", "source_type", "status"]

/-- One exported row per log entry, in column order. -/
def exportRow (e : LogEntry) : List String :=
  [e.user, e.timestamp, e.query, e.source_type, e.status]

/-- Audit export (app.py lines 77-85): `pd.DataFrame(logs).to_csv` as a flat
table — one header row, then one row per entry in list (append, i.e.
oldest-first) order. -/
def exportTable (logs : List LogEntry) : List (List String) :=
  exportHeader :: logs.map exportRow

/-- Parse one exported row back into a log entry. -/
def readRow : List String → Option LogEntry
  | [u, t, q, s, st] => some ⟨u, t, q, s, st⟩
  | _ => none

/-- Parse a list of exported rows back into log entries, failing on any
malformed row. -/
def readRows : List (List String) → Option (List LogEntry)
  | [] => some []
  | r :: rs =>
    match readRow r with
    | none => none
    | some e =>
      match readRows rs with
      | none => none
      | some es => some (e :: es)

/-- Re-read an exported table: skip the header row, parse every data row. -/
def readTable : List (List String) → Option (List LogEntry)
  | [] => none
  | _ :: rows => readRows rows

/-- Modelled from the spec: the Retriever of section 4.3 (the repository
delegates `search` to the external Chroma vector store at app.py line 111, so
its internals are not in `src/`).  A page record of the corpus. -/
structure PageRecord where
  text : String
  source_name : String
  page_index : Nat
deriving DecidableEq, Repr

/-- Modelled from the spec: `search(query, k)` scores every corpus record by
its vector distance to the query (abstracted as `distTo`), orders by
ascending distance and returns the first `k`; with fewer than `k` records it
returns all of them. -/
def search (corpus : List PageRecord) (distTo : PageRecord → ℚ) (k : Nat) :
    List (PageRecord × ℚ) :=
  (List.insertionSort (fun a b => a.2 ≤ b.2) (corpus.map (fun r => (r, distTo r)))).take k

example :
    handleTurn (some ⟨[]⟩) (fun _ _ => .ok [⟨"t", some "knowledge/a.pdf", some 0⟩])
      (fun _ => .ok "SOURCE_TYPE: CONTENT See a.pdf.") ["a.pdf"] "ts" "q" ⟨[], []⟩ =
    (⟨[⟨"user", "q"⟩, ⟨"assistant", "See a.pdf."⟩],
      [⟨"Shan (Lead)", "ts", "q", contentLabel, "Success"⟩]⟩,
     .ok contentLabel "See a.pdf." (some ["a.pdf (p.1)"])) := by decide

/-! ### Helper lemmas about the Python string operations -/

lemma containsSubL_cons (a : Char) (rest : List Char) (p : Char) (ps : List Char) :
    containsSubL (a :: rest) (p :: ps) =
      (isPrefixL (p :: ps) (a :: rest) || containsSubL rest (p :: ps)) := rfl

lemma replaceAllAux_of_not_contains (pat repl : List Char) :
    ∀ (fuel : Nat) (s : List Char), containsSubL s pat = false →
      replaceAllAux pat repl fuel s = s := by
  intro fuel
  induction fuel with
  | zero => intro s _; rfl
  | succ n ih =>
    intro s h
    match s with
    | [] => rfl
    | a :: rest =>
      match pat with
      | [] => simp [containsSubL] at h
      | p :: ps =>
        rw [containsSubL_cons] at h
        rcases Bool.or_eq_false_iff.mp h with ⟨h1, h2⟩
        simp only [replaceAllAux, h1, Bool.false_eq_true, if_false]
        rw [ih rest h2]

lemma replaceAllL_of_not_contains (pat repl s : List Char)
    (h : containsSubL s pat = false) : replaceAllL pat repl s = s :=
  replaceAllAux_of_not_contains pat repl s.length s h

lemma pyReplace_of_not_contains (s pat repl : String)
    (h : pyContains s pat = false) : pyReplace s pat repl = s := by
  unfold pyReplace
  rw [replaceAllL_of_not_contains pat.data repl.data s.data h]

/-! ### Claim theorems -/

/-- Claim C8: a model reply containing neither routing marker is labelled as
content mode by the renderer (app.py lines 143-148 fall into the `else`
branch), and the displayed text is the raw reply with surrounding whitespace
trimmed, since removing an absent marker changes nothing. -/
theorem c8_missing_marker_treated_as_content (raw : String)
    (h1 : pyContains raw metaMarker = false)
    (h2 : pyContains raw contentMarker = false) :
    parseSourceType raw = (contentLabel, pyStrip raw) := by
  unfold parseSourceType
  rw [h1]
  simp only [Bool.false_eq_true, if_false]
  rw [pyReplace_of_not_contains raw contentMarker "" h2]

theorem c8_witness :
    pyContains "  Deviations are logged per SOP-001.  " metaMarker = false ∧
    parseSourceType "  Deviations are logged per SOP-001.  " =
      (contentLabel, pyStrip "  Deviations are logged per SOP-001.  ") :=
  ⟨by decide, c8_missing_marker_treated_as_content _ (by decide) (by decide)⟩

/-- Claim C1: with no matching PDF files `setup_engine` returns `None`
(app.py lines 41-42), and every subsequent turn is handled by the
engine-unavailable branch (lines 169-170): the result is the same for every
retrieval and model function (nothing is dispatched to them), a user-visible
error is shown, and the state change is exactly the user-message append — in
particular no `LogEntry` is appended. -/
theorem c1_empty_corpus_engine_unavailable
    (load : String → Except String (List Doc)) (all_files : List String)
    (h : all_files.filter lowerEndsWithPdf = []) :
    setup_engine load all_files = (none, []) ∧
    ∀ (retrieve : Engine → String → Except String (List Doc))
      (invoke : String → Except String String)
      (current_pdfs : List String) (now prompt : String) (st : AppState),
      handleTurn none retrieve invoke current_pdfs now prompt st =
        ({ st with chat_history := st.chat_history ++ [⟨"user", prompt⟩] },
         .engineUnavailable errNoPdfs) := by
  constructor
  · simp only [setup_engine, h]
  · intro retrieve invoke current_pdfs now prompt st
    rfl

theorem c1_witness :
    (["readme.txt"].filter lowerEndsWithPdf = []) ∧
    setup_engine (fun _ => .error "io") ["readme.txt"] = (none, []) ∧
    handleTurn none (fun _ _ => .ok []) (fun _ => .ok "") [] "ts" "q" ⟨[], []⟩ =
      (⟨[⟨"user", "q"⟩], []⟩, .engineUnavailable errNoPdfs) := by
  have h := c1_empty_corpus_engine_unavailable (fun _ => .error "io") ["readme.txt"] (by decide)
  exact ⟨by decide, h.1, h.2 _ _ _ _ _ _⟩

/-- Claim C9: when the engine is unavailable, the user's message is still
appended to the chat history (app.py line 104 runs before the engine check),
while no assistant message and no LogEntry are appended (lines 169-170): the
history can end on a user turn with no assistant reply. -/
theorem c9_unavailable_turn_appends_only_user_message
    (retrieve : Engine → String → Except String (List Doc))
    (invoke : String → Except String String)
    (current_pdfs : List String) (now prompt : String) (st : AppState) :
    (handleTurn none retrieve invoke current_pdfs now prompt st).1.chat_history =
        st.chat_history ++ [⟨"user", prompt⟩] ∧
    (handleTurn none retrieve invoke current_pdfs now prompt st).1.logs = st.logs ∧
    (handleTurn none retrieve invoke current_pdfs now prompt st).2 =
        .engineUnavailable errNoPdfs ∧
    (handleTurn none retrieve invoke current_pdfs now prompt st).1.chat_history.getLast? =
        some ⟨"user", prompt⟩ ∧
    ∀ m ∈ (handleTurn none retrieve invoke current_pdfs now prompt st).1.chat_history,
      m.role = "assistant" → m ∈ st.chat_history := by
  refine ⟨rfl, rfl, rfl, ?_, ?_⟩
  · show (st.chat_history ++ [(⟨"user", prompt⟩ : Msg)]).getLast? = some ⟨"user", prompt⟩
    simp
  · intro m hm hrole
    have hm1 : m ∈ st.chat_history ++ [(⟨"user", prompt⟩ : Msg)] := hm
    rcases List.mem_append.mp hm1 with h | h
    · exact h
    · simp only [List.mem_singleton] at h
      subst h
      have hbad : ("user" : String) = "assistant" := hrole
      exact absurd hbad (by decide)

/-! ### Audit-log export round trip -/

lemma readRows_map_exportRow (logs : List LogEntry) :
    readRows (logs.map exportRow) = some logs := by
  induction logs with
  | nil => rfl
  | cons e rest ih => simp [readRows, readRow, exportRow, ih]

/-- Claim C5: exporting the session log produces one row per entry in append
(oldest-first) order after the header, and re-reading the exported table
restores exactly the appended sequence of entries — in particular the ordered
(timestamp, query, outcome) triples. -/
theorem c5_export_roundtrip (logs : List LogEntry) :
    readTable (exportTable logs) = some logs ∧
    (exportTable logs).drop 1 = logs.map exportRow ∧
    (readTable (exportTable logs)).map
        (List.map (fun e => (e.timestamp, e.query, e.status))) =
      some (logs.map (fun e => (e.timestamp, e.query, e.status))) := by
  have h1 : readTable (exportTable logs) = some logs := by
    show readRows (logs.map exportRow) = some logs
    exact readRows_map_exportRow logs
  refine ⟨h1, rfl, ?_⟩
  rw [h1]
  rfl

/-! ### Retrieval (spec-modelled `search`) -/

/-- Claim C6: `search` over a corpus of `N` records returns exactly `k`
results when `k ≤ N`, exactly `N` results when `k > N`, and its output is
sorted by non-decreasing distance. -/
theorem c6_search_size_and_order
    (corpus : List PageRecord) (distTo : PageRecord → ℚ) (k : Nat) :
    (k ≤ corpus.length → (search corpus distTo k).length = k) ∧
    (corpus.length < k → (search corpus distTo k).length = corpus.length) ∧
    List.Sorted (fun a b => a.2 ≤ b.2) (search corpus distTo k) := by
  have htotal : IsTotal (PageRecord × ℚ) (fun a b => a.2 ≤ b.2) :=
    ⟨fun a b => le_total a.2 b.2⟩
  have htrans : IsTrans (PageRecord × ℚ) (fun a b => a.2 ≤ b.2) :=
    ⟨fun _ _ _ h1 h2 => le_trans h1 h2⟩
  have hlen : (List.insertionSort (fun a b : PageRecord × ℚ => a.2 ≤ b.2)
      (corpus.map (fun r => (r, distTo r)))).length = corpus.length := by
    rw [List.length_insertionSort, List.length_map]
  refine ⟨?_, ?_, ?_⟩
  · intro hk
    unfold search
    rw [List.length_take, hlen]
    exact Nat.min_eq_left hk
  · intro hk
    unfold search
    rw [List.length_take, hlen]
    exact Nat.min_eq_right (Nat.le_of_lt hk)
  · unfold search
    exact List.Pairwise.sublist (List.take_sublist _ _) (List.sorted_insertionSort _ _)

theorem c6_witness :
    (1 ≤ ([⟨"a", "SOP-001.pdf", 0⟩, ⟨"b", "SOP-001.pdf", 1⟩] : List PageRecord).length) ∧
    (search [⟨"a", "SOP-001.pdf", 0⟩, ⟨"b", "SOP-001.pdf", 1⟩]
      (fun r => (r.page_index : ℚ)) 1).length = 1 :=
  ⟨by decide,
   (c6_search_size_and_order [⟨"a", "SOP-001.pdf", 0⟩, ⟨"b", "SOP-001.pdf", 1⟩]
     (fun r => (r.page_index : ℚ)) 1).1 (by decide)⟩

/-! ### Ingestion lemmas -/

lemma ingest_append (load : String → Except String (List Doc)) (xs ys : List String) :
    ingest load (xs ++ ys) =
      ((ingest load xs).1 ++ (ingest load ys).1, (ingest load xs).2 ++ (ingest load ys).2) := by
  induction xs with
  | nil => simp [ingest]
  | cons f rest ih =>
    cases hf : load f with
    | ok pages => simp [ingest, hf, ih, List.append_assoc]
    | error e => simp [ingest, hf, ih]

lemma ingest_all_ok_no_warnings (load : String → Except String (List Doc))
    (l : List String) (h : ∀ f ∈ l, ∃ ps, load f = .ok ps) :
    (ingest load l).2 = [] := by
  induction l with
  | nil => rfl
  | cons f rest ih =>
    obtain ⟨ps, hf⟩ := h f (List.mem_cons_self f rest)
    simp only [ingest, hf]
    exact ih (fun g hg => h g (List.mem_cons_of_mem f hg))

lemma ingest_mem_of_ok (load : String → Except String (List Doc))
    (l : List String) (f : String) (ps : List Doc) (d : Doc)
    (hmem : f ∈ l) (hload : load f = .ok ps) (hd : d ∈ ps) :
    d ∈ (ingest load l).1 := by
  induction l with
  | nil => exact absurd hmem (List.not_mem_nil f)
  | cons g rest ih =>
    rcases List.mem_cons.mp hmem with h | h
    · subst h
      simp only [ingest, hload]
      exact List.mem_append_left _ hd
    · cases hg : load g with
      | ok qs =>
        simp only [ingest, hg]
        exact List.mem_append_right _ (ih h)
      | error e =>
        simp only [ingest, hg]
        exact ih h

/-- Claim C7: when exactly one file in the PDF list fails to parse, ingestion
emits exactly one warning (for that file), skips it, and continues: the
collected pages are those of the surrounding successfully parsed files, every
page of every successfully parsed file is still present, and `setup_engine`
still builds the engine from those pages. -/
theorem c7_single_parse_failure_skipped
    (load : String → Except String (List Doc)) (all_files l1 l2 : List String)
    (bad err : String)
    (h1 : ∀ f ∈ l1, ∃ ps, load f = .ok ps)
    (h2 : ∀ f ∈ l2, ∃ ps, load f = .ok ps)
    (hb : load bad = .error err)
    (hfilter : all_files.filter lowerEndsWithPdf = l1 ++ bad :: l2) :
    (ingest load (l1 ++ bad :: l2)).2 = [warnMsg bad err] ∧
    (ingest load (l1 ++ bad :: l2)).1 = (ingest load l1).1 ++ (ingest load l2).1 ∧
    (∀ f ∈ l1 ++ l2, ∀ ps, load f = .ok ps → ∀ d ∈ ps,
      d ∈ (ingest load (l1 ++ bad :: l2)).1) ∧
    (setup_engine load all_files).1 = some ⟨(ingest load l1).1 ++ (ingest load l2).1⟩ := by
  have hbadstep : ingest load (bad :: l2) = ((ingest load l2).1, warnMsg bad err :: (ingest load l2).2) := by
    simp [ingest, hb]
  have hsplit := ingest_append load l1 (bad :: l2)
  have hw1 : (ingest load l1).2 = [] := ingest_all_ok_no_warnings load l1 h1
  have hw2 : (ingest load l2).2 = [] := ingest_all_ok_no_warnings load l2 h2
  have hwarn : (ingest load (l1 ++ bad :: l2)).2 = [warnMsg bad err] := by
    rw [hsplit]
    simp [hbadstep, hw1, hw2]
  have hpages : (ingest load (l1 ++ bad :: l2)).1 = (ingest load l1).1 ++ (ingest load l2).1 := by
    rw [hsplit]
    simp [hbadstep]
  refine ⟨hwarn, hpages, ?_, ?_⟩
  · intro f hf ps hload d hd
    rcases List.mem_append.mp hf with h | h
    · exact ingest_mem_of_ok load _ f ps d (List.mem_append_left _ h) hload hd
    · exact ingest_mem_of_ok load _ f ps d
        (List.mem_append_right _ (List.mem_cons_of_mem bad h)) hload hd
  · simp only [setup_engine, hfilter]
    cases l1 with
    | nil =>
      simp only [List.nil_append]
      rw [show (ingest load (bad :: l2)).1 = (ingest load ([] : List String)).1 ++ (ingest load l2).1 by
        rw [hbadstep]; rfl]
    | cons a as =>
      simp only [List.cons_append]
      rw [← List.cons_append, hpages]

theorem c7_witness :
    (ingest (fun f => if f = "b.pdf" then Except.error "corrupt"
        else Except.ok [⟨f, some f, some 0⟩]) (["a.pdf"] ++ "b.pdf" :: ["c.pdf"])).2 =
      [warnMsg "b.pdf" "corrupt"] := by
  have h := c7_single_parse_failure_skipped
    (fun f => if f = "b.pdf" then Except.error "corrupt" else Except.ok [⟨f, some f, some 0⟩])
    ["a.pdf", "b.pdf", "c.pdf"] ["a.pdf"] ["c.pdf"] "b.pdf" "corrupt"
    (by
      intro f hf
      simp only [List.mem_singleton] at hf
      subst hf
      exact ⟨[⟨"a.pdf", some "a.pdf", some 0⟩], rfl⟩)
    (by
      intro f hf
      simp only [List.mem_singleton] at hf
      subst hf
      exact ⟨[⟨"c.pdf", some "c.pdf", some 0⟩], rfl⟩)
    rfl (by decide)
  exact h.1

/-! ### Citation-extraction lemmas -/

lemma citationsRaw_length (l : List Doc) (cs : List String)
    (h : citationsRaw l = .ok cs) : cs.length = l.length := by
  induction l generalizing cs with
  | nil =>
    simp only [citationsRaw, Except.ok.injEq] at h
    subst h
    rfl
  | cons d rest ih =>
    simp only [citationsRaw] at h
    cases hd : citationOf d with
    | error e => rw [hd] at h; exact absurd h (by simp)
    | ok c =>
      rw [hd] at h
      cases hr : citationsRaw rest with
      | error e => rw [hr] at h; exact absurd h (by simp)
      | ok cs0 =>
        rw [hr] at h
        simp only [Except.ok.injEq] at h
        subst h
        simp [ih cs0 hr]

lemma citationsRaw_mem (l : List Doc) (cs : List String)
    (h : citationsRaw l = .ok cs) :
    ∀ c ∈ cs, ∃ d ∈ l, ∃ s p, d.source = some s ∧ d.page = some p ∧ c = renderCit s p := by
  induction l generalizing cs with
  | nil =>
    simp only [citationsRaw, Except.ok.injEq] at h
    subst h
    intro c hc
    exact absurd hc (List.not_mem_nil c)
  | cons d rest ih =>
    simp only [citationsRaw] at h
    cases hd : citationOf d with
    | error e => rw [hd] at h; exact absurd h (by simp)
    | ok c0 =>
      rw [hd] at h
      cases hr : citationsRaw rest with
      | error e => rw [hr] at h; exact absurd h (by simp)
      | ok cs0 =>
        rw [hr] at h
        simp only [Except.ok.injEq] at h
        subst h
        intro c hc
        rcases List.mem_cons.mp hc with hc | hc
        · subst hc
          cases hs : d.source with
          | none => rw [citationOf, hs] at hd; exact absurd hd (by simp)
          | some s =>
            cases hp : d.page with
            | none => rw [citationOf, hs, hp] at hd; exact absurd hd (by simp)
            | some p =>
              rw [citationOf, hs, hp] at hd
              simp only [Except.ok.injEq] at hd
              exact ⟨d, List.mem_cons_self d rest, s, p, hs, hp, hd.symm⟩
        · obtain ⟨d2, hd2, s, p, hs, hp, hcit⟩ := ih cs0 hr c hc
          exact ⟨d2, List.mem_cons_of_mem d hd2, s, p, hs, hp, hcit⟩

lemma citationsRaw_complete (l : List Doc) (cs : List String)
    (h : citationsRaw l = .ok cs) :
    ∀ d ∈ l, ∀ s p, d.source = some s → d.page = some p → renderCit s p ∈ cs := by
  induction l generalizing cs with
  | nil =>
    intro d hd
    exact absurd hd (List.not_mem_nil d)
  | cons d0 rest ih =>
    simp only [citationsRaw] at h
    cases hd : citationOf d0 with
    | error e => rw [hd] at h; exact absurd h (by simp)
    | ok c0 =>
      rw [hd] at h
      cases hr : citationsRaw rest with
      | error e => rw [hr] at h; exact absurd h (by simp)
      | ok cs0 =>
        rw [hr] at h
        simp only [Except.ok.injEq] at h
        subst h
        intro d hdmem s p hs hp
        rcases List.mem_cons.mp hdmem with hc | hc
        · subst hc
          rw [citationOf, hs, hp] at hd
          simp only [Except.ok.injEq] at hd
          rw [hd]
          exact List.mem_cons_self c0 cs0
        · exact List.mem_cons_of_mem c0 (ih cs0 hr d hc s p hs hp)

lemma citationsRaw_ok_iff (l : List Doc) :
    (∃ cs, citationsRaw l = .ok cs) ↔ ∀ d ∈ l, d.source.isSome ∧ d.page.isSome := by
  induction l with
  | nil =>
    simp only [citationsRaw]
    constructor
    · intro _ d hd; exact absurd hd (List.not_mem_nil d)
    · intro _; exact ⟨[], rfl⟩
  | cons d rest ih =>
    constructor
    · rintro ⟨cs, hcs⟩
      simp only [citationsRaw] at hcs
      cases hd : citationOf d with
      | error e => rw [hd] at hcs; exact absurd hcs (by simp)
      | ok c0 =>
        rw [hd] at hcs
        cases hr : citationsRaw rest with
        | error e => rw [hr] at hcs; exact absurd hcs (by simp)
        | ok cs0 =>
          intro d2 hd2
          rcases List.mem_cons.mp hd2 with hc | hc
          · subst hc
            cases hs : d2.source with
            | none => rw [citationOf, hs] at hd; exact absurd hd (by simp)
            | some s =>
              cases hp : d2.page with
              | none => rw [citationOf, hs, hp] at hd; exact absurd hd (by simp)
              | some p => exact ⟨rfl, rfl⟩
          · exact (ih.mp ⟨cs0, hr⟩) d2 hc
    · intro hall
      obtain ⟨s, hs⟩ := Option.isSome_iff_exists.mp (hall d (List.mem_cons_self d rest)).1
      obtain ⟨p, hp⟩ := Option.isSome_iff_exists.mp (hall d (List.mem_cons_self d rest)).2
      obtain ⟨cs0, hcs0⟩ := ih.mpr (fun d2 hd2 => hall d2 (List.mem_cons_of_mem d hd2))
      refine ⟨renderCit s p :: cs0, ?_⟩
      simp only [citationsRaw, citationOf, hs, hp, hcs0]

lemma citationSet_ok_iff (results : List Doc) :
    (∃ cs, citationSet results = .ok cs) ↔
      ∀ d ∈ results, d.source.isSome ∧ d.page.isSome := by
  rw [← citationsRaw_ok_iff]
  unfold citationSet
  cases citationsRaw results <;> simp [Except.map]

/-- Claim C10: prompt assembly (app.py lines 113-116) is total over records
with missing metadata — `dict.get` substitutes `'Unknown'` for the source and
`0` for the page — while citation extraction (line 157) indexes both keys
directly: it succeeds exactly when every retrieved record carries both keys,
and with a record missing a key its `KeyError` branch is reached. -/
theorem c10_prompt_total_citation_keys_required :
    (∀ text : String, contextBlock ⟨text, none, none⟩ =
        "SOURCE: Unknown (Page 1)\nCONTENT: " ++ text) ∧
    (∀ (text s : String) (p : Nat), contextBlock ⟨text, some s, some p⟩ =
        "SOURCE: " ++ basename s ++ " (Page " ++ toString (p + 1) ++ ")\nCONTENT: " ++ text) ∧
    (∀ results : List Doc, (∃ cs, citationSet results = .ok cs) ↔
        ∀ d ∈ results, d.source.isSome ∧ d.page.isSome) ∧
    citationSet [⟨"text", none, none⟩] = .error "KeyError: 'source'" := by
  refine ⟨?_, ?_, citationSet_ok_iff, rfl⟩
  · intro text
    simp only [contextBlock, basename, Option.getD]
    rfl
  · intro text s p
    rfl

theorem c10_witness :
    contextBlock ⟨"step 1", none, none⟩ = "SOURCE: Unknown (Page 1)\nCONTENT: step 1" :=
  c10_prompt_total_citation_keys_required.1 "step 1"

/-- Claim C3: in content mode the displayed citation set is computed from all
retrieved records: with `results.length ≤ k` (the retriever returns at most
`k` records) and every record carrying both metadata keys, the set has at
most `k` elements, contains no duplicates, each element is rendered exactly
as `<source_name> (p.<page_index+1>)` from some retrieved record, and the
rendered citation of every retrieved record is present regardless of what
the model's text quoted. -/
theorem c3_citation_set_bounded_nodup_rendered
    (results : List Doc) (k : Nat) (cits : List String)
    (hk : results.length ≤ k) (hc : citationSet results = .ok cits) :
    cits.length ≤ k ∧ cits.Nodup ∧
    (∀ c ∈ cits, ∃ d ∈ results, ∃ s p, d.source = some s ∧ d.page = some p ∧
      c = renderCit s p) ∧
    (∀ d ∈ results, ∀ s p, d.source = some s → d.page = some p →
      renderCit s p ∈ cits) := by
  cases hraw : citationsRaw results with
  | error e =>
    unfold citationSet at hc
    rw [hraw] at hc
    exact absurd hc (by simp [Except.map])
  | ok cs0 =>
    unfold citationSet at hc
    rw [hraw] at hc
    simp only [Except.map, Except.ok.injEq] at hc
    subst hc
    refine ⟨?_, List.nodup_dedup cs0, ?_, ?_⟩
    · calc cs0.dedup.length ≤ cs0.length := (List.dedup_sublist cs0).length_le
        _ = results.length := citationsRaw_length results cs0 hraw
        _ ≤ k := hk
    · intro c hc2
      exact citationsRaw_mem results cs0 hraw c (List.mem_dedup.mp hc2)
    · intro d hd s p hs hp
      exact List.mem_dedup.mpr (citationsRaw_complete results cs0 hraw d hd s p hs hp)

theorem c3_witness :
    citationSet [⟨"t1", some "knowledge/SOP-001.pdf", some 0⟩,
        ⟨"t1", some "knowledge/SOP-001.pdf", some 0⟩,
        ⟨"t2", some "knowledge/SOP-002.pdf", some 2⟩] =
      .ok ["SOP-001.pdf (p.1)", "SOP-002.pdf (p.3)"] ∧
    (["SOP-001.pdf (p.1)", "SOP-002.pdf (p.3)"] : List String).length ≤ 6 ∧
    (["SOP-001.pdf (p.1)", "SOP-002.pdf (p.3)"] : List String).Nodup := by
  have h := c3_citation_set_bounded_nodup_rendered
    [⟨"t1", some "knowledge/SOP-001.pdf", some 0⟩,
     ⟨"t1", some "knowledge/SOP-001.pdf", some 0⟩,
     ⟨"t2", some "knowledge/SOP-002.pdf", some 2⟩] 6
    ["SOP-001.pdf (p.1)", "SOP-002.pdf (p.3)"] (by decide) rfl
  exact ⟨rfl, h.1, h.2.1⟩

/-- Claim C4: a failing retrieval aborts the turn with the state change being
only the user-message append (no LogEntry); a failing model invocation does
the same; and in every turn the log is either unchanged or extended by
exactly one entry with status `"Success"`, which happens only when the
outcome is a fully rendered answer. -/
theorem c4_logentry_only_after_full_success
    (eng : Engine) (engine : Option Engine)
    (retrieve : Engine → String → Except String (List Doc))
    (invoke : String → Except String String)
    (current_pdfs : List String) (now prompt : String) (st : AppState) :
    (∀ e, retrieve eng prompt = .error e →
      handleTurn (some eng) retrieve invoke current_pdfs now prompt st =
        ({ st with chat_history := st.chat_history ++ [⟨"user", prompt⟩] }, .aborted e)) ∧
    (∀ results e, retrieve eng prompt = .ok results →
      invoke (systemPrompt (String.intercalate ", " current_pdfs)
        (String.intercalate "\n\n---\n\n" (results.map contextBlock)) prompt) = .error e →
      handleTurn (some eng) retrieve invoke current_pdfs now prompt st =
        ({ st with chat_history := st.chat_history ++ [⟨"user", prompt⟩] }, .aborted e)) ∧
    ((handleTurn engine retrieve invoke current_pdfs now prompt st).1.logs = st.logs ∨
      ∃ sd cr cits,
        (handleTurn engine retrieve invoke current_pdfs now prompt st).2 = .ok sd cr cits ∧
        (handleTurn engine retrieve invoke current_pdfs now prompt st).1.logs =
          st.logs ++ [⟨"Shan (Lead)", now, prompt, sd, "Success"⟩]) := by
  refine ⟨?_, ?_, ?_⟩
  · intro e he
    simp only [handleTurn, he]
  · intro results e h1 h2
    simp only [handleTurn, h1, h2]
  · cases engine with
    | none => left; rfl
    | some eng2 =>
      simp only [handleTurn]
      repeat' split
      all_goals first
        | (left; rfl)
        | (right; exact ⟨_, _, _, rfl, rfl⟩)

theorem c4_witness :
    ((fun (_ : Engine) (_ : String) =>
        (Except.error "search down" : Except String (List Doc))) ⟨[]⟩ "q" =
      .error "search down") ∧
    handleTurn (some ⟨[]⟩) (fun _ _ => .error "search down") (fun _ => .ok "x")
        [] "ts" "q" ⟨[], []⟩ =
      (⟨[⟨"user", "q"⟩], []⟩, .aborted "search down") :=
  ⟨rfl,
   (c4_logentry_only_after_full_success ⟨[]⟩ (some ⟨[]⟩)
     (fun _ _ => .error "search down") (fun _ => .ok "x")
     [] "ts" "q" ⟨[], []⟩).1 "search down" rfl⟩

/-- Claim C2 counterexample: a reply that carries the metadata routing marker
but also happens to contain the substring `"CONTENT"` elsewhere still
triggers the grounding-pill branch (`"CONTENT" in raw_content` at app.py line
156 is checked on the raw reply), so the turn produces a non-empty citation
set — refuting the claim that every metadata-marked turn yields zero
citations. -/
theorem c2_counterexample :
    pyContains "SOURCE_TYPE: METADATA Files hold CONTENT internally." metaMarker = true ∧
    (handleTurn (some ⟨[]⟩) (fun _ _ => .ok [⟨"t", some "knowledge/a.pdf", some 0⟩])
        (fun _ => .ok "SOURCE_TYPE: METADATA Files hold CONTENT internally.")
        ["a.pdf"] "ts" "q" ⟨[], []⟩).2 =
      .ok metaLabel "Files hold CONTENT internally." (some ["a.pdf (p.1)"]) :=
  ⟨by decide, by decide⟩

/-- Claim C2 amended: a turn whose model reply carries the metadata routing
marker is labelled as grounded on the file-name list, and it produces zero
citations provided the reply does not contain the substring `"CONTENT"`
anywhere (the pill branch tests the raw reply for that substring). -/
theorem c2_metadata_reply_without_content_substring
    (eng : Engine) (retrieve : Engine → String → Except String (List Doc))
    (invoke : String → Except String String)
    (current_pdfs : List String) (now prompt raw : String) (st : AppState)
    (results : List Doc)
    (hr : retrieve eng prompt = .ok results)
    (hi : ∀ s, invoke s = .ok raw)
    (hm : pyContains raw metaMarker = true)
    (hcn : pyContains raw "CONTENT" = false) :
    (handleTurn (some eng) retrieve invoke current_pdfs now prompt st).2 =
      .ok metaLabel (pyStrip (pyReplace raw metaMarker "")) none := by
  simp only [handleTurn, hr, hi, hcn, Bool.false_eq_true, if_false,
    parseSourceType, hm, if_true]

theorem c2_witness :
    pyContains "SOURCE_TYPE: METADATA There are 3 SOP files." metaMarker = true ∧
    (handleTurn (some ⟨[]⟩) (fun _ _ => .ok [])
        (fun _ => .ok "SOURCE_TYPE: METADATA There are 3 SOP files.")
        ["a.pdf", "b.pdf", "c.pdf"] "ts" "q" ⟨[], []⟩).2 =
      .ok metaLabel
        (pyStrip (pyReplace "SOURCE_TYPE: METADATA There are 3 SOP files." metaMarker "")) none :=
  ⟨by decide,
   c2_metadata_reply_without_content_substring ⟨[]⟩ (fun _ _ => .ok [])
     (fun _ => .ok "SOURCE_TYPE: METADATA There are 3 SOP files.")
     ["a.pdf", "b.pdf", "c.pdf"] "ts" "q" "SOURCE_TYPE: METADATA There are 3 SOP files."
     ⟨[], []⟩ [] rfl (fun _ => rfl) (by decide) (by decide)⟩
